import Mathlib

/-!
# Verification of the omni-svelte database/framework layer

Shallow embedding of the parts of the repository the claims are about:

* `src/package/database/query-builder.ts` — `QueryBuilder.where`,
  `QueryBuilder.whereAny`, `QueryBuilder.buildCondition`,
  `QueryBuilder.paginate`, `QueryBuilder.newFromBuilder`;
* `src/package/database/model.ts` (concatenated into the relationships
  source bundle) — the `Model` base class: attribute storage, casting,
  dirty-tracking, `save`/`performUpdate`/`delete`/`fromAttributes`;
* `src/package/database/database.ts` — `configureDatabase`/`getDatabase`;
* `src/package/utils/index.ts` — `deepEqual`;
* `src/package/helpers.ts` — `parsePagination`;
* the vite plugin's `createFrameworkHandler`.

JavaScript values are modelled by explicit inductive types; `Date` objects
carry both their millisecond instant and an allocation identifier so that
JavaScript's reference (`!==`) comparison on objects is represented
faithfully: every `new Date()` call allocates a fresh identifier.
-/

namespace OmniSvelte

/-- JavaScript runtime values as used by the ORM layer.  A `Date` object is a
pair of its millisecond timestamp and an allocation id (object identity);
two `Date`s allocated by distinct `new Date()` calls are distinct values even
at the same instant, mirroring JavaScript reference semantics. -/
inductive Value where
  | vStr (s : String)
  | vNum (n : Int)
  | vBool (b : Bool)
  | vDate (ms : Int) (ref : Nat)
  | vNull
  | vUndef
  deriving DecidableEq, Repr

/-- JavaScript object (`{...}`) modelled as an insertion-ordered association
list with unique keys.  Reading an absent key yields `undefined`. -/
def jsGet (obj : List (String × Value)) (key : String) : Value :=
  match obj.find? (fun kv => kv.1 = key) with
  | some kv => kv.2
  | none => Value.vUndef

/-- JavaScript property write `obj[key] = v`: replaces in place if the key is
present, otherwise appends (insertion order preserved). -/
def jsSet (obj : List (String × Value)) (key : String) (v : Value) :
    List (String × Value) :=
  if obj.any (fun kv => kv.1 = key) then
    obj.map (fun kv => if kv.1 = key then (kv.1, v) else kv)
  else
    obj ++ [(key, v)]

/-! ## Query builder conditions (`query-builder.ts`)

`buildCondition` maps an operator to a drizzle comparison primitive
(`eq`/`ne`/`gt`/`gte`/`lt`/`lte`/`like`/`ilike`), defaulting unknown
operators to `eq`.  Conditions are represented syntactically, as the tree of
primitive applications the builder constructs. -/

/-- A primitive comparison as built by `QueryBuilder.buildCondition`: one of
the eight drizzle comparison primitives applied to a column and a value. -/
inductive Prim where
  | eqC (col : String) (v : Value)
  | neC (col : String) (v : Value)
  | gtC (col : String) (v : Value)
  | gteC (col : String) (v : Value)
  | ltC (col : String) (v : Value)
  | lteC (col : String) (v : Value)
  | likeC (col : String) (v : Value)
  | ilikeC (col : String) (v : Value)
  deriving DecidableEq, Repr

/-- The condition tree a `whereAny`/`search` call adds to the query:
`or(...)` over the primitive comparisons built for each input entry. -/
inductive Cond where
  | orC (cs : List Prim)
  deriving DecidableEq, Repr

/-- `QueryBuilder.buildCondition(column, operator, value)`
(query-builder.ts lines 464–489).  The operator slot has TypeScript type
`any`, so it is a `Value`; only the listed string operators select a
non-default primitive, every other operator value falls to the `default`
case, which is `eq`. -/
def buildCondition (column : String) (operator : Value) (value : Value) : Prim :=
  match operator with
  | Value.vStr "=" => Prim.eqC column value
  | Value.vStr "==" => Prim.eqC column value
  | Value.vStr "!=" => Prim.neC column value
  | Value.vStr "<>" => Prim.neC column value
  | Value.vStr ">" => Prim.gtC column value
  | Value.vStr ">=" => Prim.gteC column value
  | Value.vStr "<" => Prim.ltC column value
  | Value.vStr "<=" => Prim.lteC column value
  | Value.vStr "like" => Prim.likeC column value
  | Value.vStr "ilike" => Prim.ilikeC column value
  | _ => Prim.eqC column value

/-- A value position in the object form of `whereAny`: either a plain value
(equality) or an `[operator, value]` array. -/
inductive ObjVal where
  | plain (v : Value)
  | opArr (op : Value) (v : Value)
  deriving DecidableEq, Repr

/-- A tuple in the array form of `whereAny`: `[column, value]` or
`[column, operator, value]`.  The same shape also describes the argument
lists of the `where(...)` calls a callback issues (a 2-argument call or a
3-argument call). -/
inductive TupleCond where
  | two (col : String) (v : Value)
  | three (col : String) (op : Value) (v : Value)
  deriving DecidableEq, Repr

/-- `whereAny` on the object form (query-builder.ts lines 162–171):
`Object.entries(conditions).map`: an array value is `[operator, value]`,
anything else is an equality. -/
def whereAnyObject (entries : List (String × ObjVal)) : Cond :=
  Cond.orC (entries.map (fun e =>
    match e.2 with
    | ObjVal.plain v => buildCondition e.1 (Value.vStr "=") v
    | ObjVal.opArr op v => buildCondition e.1 op v))

/-- `whereAny` on the array form (query-builder.ts lines 152–160):
length-2 tuples use `'='`, length-3 tuples use the given operator. -/
def whereAnyArray (conditions : List TupleCond) : Cond :=
  Cond.orC (conditions.map (fun c =>
    match c with
    | TupleCond.two col v => buildCondition col (Value.vStr "=") v
    | TupleCond.three col op v => buildCondition col op v))

/-- `whereAny` on the callback form (query-builder.ts lines 131–150), as the
source actually behaves.  The temporary `where` override is an **arrow
function**; inside it, `arguments` is the enclosing `whereAny`'s arguments
object, whose length is `1` (whereAny is called with the single `conditions`
argument).  The check `arguments.length === 2` is therefore always false, so
a 2-argument `where(column, value)` call is **not** shifted: the value stays
in the operator slot and the value slot is `undefined`. -/
def whereAnyCallback (calls : List TupleCond) : Cond :=
  Cond.orC (calls.map (fun c =>
    match c with
    | TupleCond.two col v => buildCondition col v Value.vUndef
    | TupleCond.three col op v => buildCondition col op v))

/-- The callback form as the surrounding documentation and the spec intend
it (and as the original `QueryBuilder.where`, lines 27–36, treats its
arguments): a 2-argument call means equality with the given value.  This is
the spec-side definition used for the refinement comparison. -/
def whereAnyCallbackIntended (calls : List TupleCond) : Cond :=
  Cond.orC (calls.map (fun c =>
    match c with
    | TupleCond.two col v => buildCondition col (Value.vStr "=") v
    | TupleCond.three col op v => buildCondition col op v))

/-- Conversion between the object-form entry shape and the tuple shape that
denotes the same condition request. -/
def objEntryToTuple (e : String × ObjVal) : TupleCond :=
  match e.2 with
  | ObjVal.plain v => TupleCond.two e.1 v
  | ObjVal.opArr op v => TupleCond.three e.1 op v

/-! ## Pagination arithmetic (`QueryBuilder.paginate`, lines 407–444) -/

/-- The `meta` object returned by `paginate` (field `from` is renamed
`from_` and `to` is renamed `to_`: both are Lean keywords). -/
structure PaginateMeta where
  current_page : Nat
  per_page : Nat
  total : Nat
  last_page : Nat
  from_ : Nat
  to_ : Nat
  has_more : Bool
  link_first : Nat
  link_last : Nat
  link_prev : Option Nat
  link_next : Option Nat
  deriving DecidableEq, Repr

/-- `QueryBuilder.paginate(perPage, page)` meta computation.
`offset = (page-1)*perPage`; `lastPage = Math.ceil(total/perPage)` is
`(total + perPage - 1) / perPage` on naturals (exact for the integer
arguments the method receives). -/
def paginateMeta (perPage page total : Nat) : PaginateMeta :=
  let offset := (page - 1) * perPage
  let lastPage := (total + perPage - 1) / perPage
  { current_page := page
    per_page := perPage
    total := total
    last_page := lastPage
    from_ := offset + 1
    to_ := min (offset + perPage) total
    has_more := page < lastPage
    link_first := 1
    link_last := lastPage
    link_prev := if page > 1 then some (page - 1) else none
    link_next := if page < lastPage then some (page + 1) else none }

/-! ## Active-Record `Model` base class (model.ts, bundled with
`relationships.ts` in the source tree)

The embedding models one model class through its static configuration
(`primaryKey`, `timestamps`, `casts`, `fillable`, validation) and an
instance state (`attributes`, `original`, `exists`, `isDirty`).  Database
writes are recorded as an effect list instead of performed.  External
JavaScript builtins (`JSON.parse`, `Date` parsing, `String(...)`,
`Number(...)`) and the wall clock are abstracted into a `JsEnv` record of
functions; `new Date()` reads the clock at the current allocation counter
and allocates a fresh object identity.  Hooks and realtime broadcasting are
modelled for model classes that declare none (every claim's scenario), and
zod validation is modelled as the success predicate of `safeParse`. -/

/-- The `casts` entry values: `'string'|'number'|'boolean'|'date'|'json'`. -/
inductive CastType where
  | cString
  | cNumber
  | cBoolean
  | cDate
  | cJson
  deriving DecidableEq, Repr

/-- Abstracted JavaScript builtins and the wall clock.  `clock i` is the
millisecond timestamp observed by the `i`-th `new Date()` allocation;
`dateParseMs v` is the instant of `new Date(v)` for a non-`Date` argument;
`jsonParse s` is `JSON.parse(s)`; `jsStringOf`/`jsNumberOf` are
`String(v)`/`Number(v)`. -/
structure JsEnv where
  clock : Nat → Int
  dateParseMs : Value → Int
  jsonParse : String → Value
  jsStringOf : Value → String
  jsNumberOf : Value → Int

/-- The static configuration surface of one model class, restricted to the
fields the modelled operations read.  `validCreate`/`validUpdate` are the
success predicates of `validation.create.safeParse` /
`validation.update.safeParse`. -/
structure StaticConfig where
  primaryKey : String
  timestamps : Bool
  casts : List (String × CastType)
  fillable : List String
  validCreate : List (String × Value) → Bool
  validUpdate : List (String × Value) → Bool

/-- Instance state of a model: `attributes`, the `original` snapshot,
`exists` (renamed `existsB`: `exists` is a Lean keyword) and `isDirty`. -/
structure ModelState where
  attributes : List (String × Value)
  original : List (String × Value)
  existsB : Bool
  isDirty : Bool
  deriving Repr

/-- A database round-trip issued by the persistence layer. -/
inductive DbEffect where
  | dbUpdate (payload : List (String × Value)) (key : Value)
  | dbInsert (payload : List (String × Value))
  | dbDelete (key : Value)
  deriving DecidableEq, Repr

/-- Lower-casing of one ASCII character. -/
def lowerChar (c : Char) : Char :=
  if 'A' ≤ c ∧ c ≤ 'Z' then Char.ofNat (c.toNat + 32) else c

/-- ASCII model of JavaScript `toLowerCase()` (the cast strings compared
against — `"true"|"1"|"yes"|"on"` — are ASCII). -/
def asciiLower (s : String) : String :=
  String.mk (s.data.map lowerChar)

/-- JavaScript `Boolean(v)` for a non-null, non-undefined value. -/
def jsTruthy : Value → Bool
  | Value.vStr s => s ≠ ""
  | Value.vNum n => n ≠ 0
  | Value.vBool b => b
  | Value.vDate _ _ => true
  | Value.vNull => false
  | Value.vUndef => false

/-- `Model.castAttribute(key, value)` (model.ts): `null`/`undefined` pass
through; otherwise the cast registered for `key` is applied —
`boolean` on a string checks membership of the lowercased string in
`['true','1','yes','on']`, `date` keeps a `Date` and otherwise allocates
`new Date(value)`, `json` parses strings.  Returns the cast value and the
updated allocation counter. -/
def castAttribute (env : JsEnv) (st : StaticConfig) (key : String) (v : Value)
    (ctr : Nat) : Value × Nat :=
  if v = Value.vNull ∨ v = Value.vUndef then (v, ctr)
  else
    match (st.casts.find? (fun kv => kv.1 = key)).map Prod.snd with
    | none => (v, ctr)
    | some CastType.cString => (Value.vStr (env.jsStringOf v), ctr)
    | some CastType.cNumber => (Value.vNum (env.jsNumberOf v), ctr)
    | some CastType.cBoolean =>
        match v with
        | Value.vStr s =>
            (Value.vBool (["true", "1", "yes", "on"].contains (asciiLower s)), ctr)
        | _ => (Value.vBool (jsTruthy v), ctr)
    | some CastType.cDate =>
        match v with
        | Value.vDate ms r => (Value.vDate ms r, ctr)
        | _ => (Value.vDate (env.dateParseMs v) ctr, ctr + 1)
    | some CastType.cJson =>
        match v with
        | Value.vStr s => (env.jsonParse s, ctr)
        | _ => (v, ctr)

/-- `Model.setAttribute(key, value)`: stores the cast value and raises the
`isDirty` flag (the accessor-definition side effect carries no state). -/
def setAttribute (env : JsEnv) (st : StaticConfig) (m : ModelState)
    (key : String) (v : Value) (ctr : Nat) : ModelState × Nat :=
  let cv := castAttribute env st key v ctr
  ({ m with attributes := jsSet m.attributes key cv.1, isDirty := true }, cv.2)

/-- `Model.getAttribute(key)`: returns the stored value without re-casting. -/
def getAttribute (m : ModelState) (key : String) : Value :=
  jsGet m.attributes key

/-- `Model.isFillable(key)`: every key is fillable when the fillable list is
empty. -/
def isFillable (st : StaticConfig) (key : String) : Bool :=
  st.fillable = [] || st.fillable.contains key

/-- `Model.fill(attributes)`: `setAttribute` for every fillable entry, in
object-entry order. -/
def fill (env : JsEnv) (st : StaticConfig) (m : ModelState)
    (attrs : List (String × Value)) (ctr : Nat) : ModelState × Nat :=
  attrs.foldl (fun acc kv =>
    if isFillable st kv.1 then setAttribute env st acc.1 kv.1 kv.2 acc.2
    else acc) (m, ctr)

/-- `Model.syncOriginal()`: snapshot attributes and clear the dirty flag. -/
def syncOriginal (m : ModelState) : ModelState :=
  { m with original := m.attributes, isDirty := false }

/-- `Model.updateTimestamps()`: one `new Date()`; `created_at` is set only
when the instance does not yet exist, `updated_at` always. -/
def updateTimestamps (env : JsEnv) (st : StaticConfig) (m : ModelState)
    (ctr : Nat) : ModelState × Nat :=
  let d := Value.vDate (env.clock ctr) ctr
  let ctr1 := ctr + 1
  let step1 :=
    if !m.existsB then setAttribute env st m "created_at" d ctr1 else (m, ctr1)
  setAttribute env st step1.1 "updated_at" d step1.2

/-- `Model.getDirtyAttributes()`: every attribute whose value is strictly
(`!==`) different from the `original` snapshot; when timestamps are enabled
and the dirty set is non-empty, `updated_at` is overwritten with a freshly
allocated `new Date()`. -/
def getDirtyAttributes (env : JsEnv) (st : StaticConfig) (m : ModelState)
    (ctr : Nat) : List (String × Value) × Nat :=
  let dirty := m.attributes.filter (fun kv => jsGet m.original kv.1 ≠ kv.2)
  if st.timestamps ∧ dirty ≠ [] then
    (jsSet dirty "updated_at" (Value.vDate (env.clock ctr) ctr), ctr + 1)
  else
    (dirty, ctr)

/-- `Model.getKey()`: the current value of the primary-key attribute. -/
def getKey (st : StaticConfig) (m : ModelState) : Value :=
  getAttribute m st.primaryKey

/-- `Model.performUpdate()`: an empty dirty set returns immediately with no
database round-trip; otherwise the dirty payload is validated (failure
throws a validation error) and one UPDATE keyed by the primary key is
issued, after which the dirty flag is cleared and `original` re-synced. -/
def performUpdate (env : JsEnv) (st : StaticConfig) (m : ModelState)
    (ctr : Nat) : Except String (ModelState × Nat × List DbEffect) :=
  let r := getDirtyAttributes env st m ctr
  let updateData := r.1
  if updateData = [] then
    Except.ok (m, r.2, [])
  else if !st.validUpdate updateData then
    Except.error "Validation failed"
  else
    Except.ok (syncOriginal m, r.2,
      [DbEffect.dbUpdate updateData (getKey st m)])

/-- `Model.getAttributesForInsert()`: a copy of the attributes with both
timestamp columns set to one `new Date()` when timestamps are enabled. -/
def getAttributesForInsert (env : JsEnv) (st : StaticConfig) (m : ModelState)
    (ctr : Nat) : List (String × Value) × Nat :=
  if st.timestamps then
    let d := Value.vDate (env.clock ctr) ctr
    (jsSet (jsSet m.attributes "created_at" d) "updated_at" d, ctr + 1)
  else
    (m.attributes, ctr)

/-- `Model.performInsert()`: validates the insert payload, issues the
INSERT, and — when the database returns the inserted row (`dbRow`) — fills
it back, force-sets `id`, marks the instance existing and clean, and
re-syncs `original`. -/
def performInsert (env : JsEnv) (st : StaticConfig) (m : ModelState)
    (ctr : Nat) (dbRow : Option (List (String × Value))) :
    Except String (ModelState × Nat × List DbEffect) :=
  let r := getAttributesForInsert env st m ctr
  let insertData := r.1
  if !st.validCreate insertData then
    Except.error "Validation failed"
  else
    match dbRow with
    | some row =>
        let f := fill env st m row r.2
        let s := setAttribute env st f.1 "id" (jsGet row "id") f.2
        Except.ok (syncOriginal { s.1 with existsB := true, isDirty := false },
          s.2, [DbEffect.dbInsert insertData])
    | none =>
        Except.ok (m, r.2, [DbEffect.dbInsert insertData])

/-- `Model.save()`: refresh timestamps when enabled, then dispatch on
`exists` to `performUpdate` or `performInsert`. -/
def save (env : JsEnv) (st : StaticConfig) (m : ModelState) (ctr : Nat)
    (dbRow : Option (List (String × Value))) :
    Except String (ModelState × Nat × List DbEffect) :=
  let t := if st.timestamps then updateTimestamps env st m ctr else (m, ctr)
  if t.1.existsB then performUpdate env st t.1 t.2
  else performInsert env st t.1 t.2 dbRow

/-- `Model.delete()` (model.ts lines 490–517): a non-existing instance
returns `false` unchanged; when `attributes.deleted_at !== undefined`
(soft-delete convention) the attribute is assigned `new Date()` directly
(bypassing `setAttribute`) and `save()` is called; otherwise one DELETE
keyed by the primary key is issued.  Both deleting branches then mark
`exists = false` and return `true`. -/
def delete (env : JsEnv) (st : StaticConfig) (m : ModelState) (ctr : Nat) :
    Except String (Bool × ModelState × Nat × List DbEffect) :=
  if !m.existsB then
    Except.ok (false, m, ctr, [])
  else if jsGet m.attributes "deleted_at" ≠ Value.vUndef then
    let d := Value.vDate (env.clock ctr) ctr
    let m1 := { m with attributes := jsSet m.attributes "deleted_at" d }
    match save env st m1 (ctr + 1) none with
    | Except.error e => Except.error e
    | Except.ok (m2, ctr2, effs) =>
        Except.ok (true, { m2 with existsB := false }, ctr2, effs)
  else
    Except.ok (true, { m with existsB := false }, ctr,
      [DbEffect.dbDelete (getKey st m)])

/-- A model instance as the zero-argument constructor leaves it
(`fill({})` touches nothing, `syncOriginal` snapshots the empty object). -/
def newModel : ModelState :=
  { attributes := [], original := [], existsB := false, isDirty := false }

/-- `Model.fromAttributes(attributes)` (model.ts lines 575–586): the
attribute map is copied **verbatim** onto a fresh instance — not routed
through `fill`/`setAttribute`, so no cast is applied — then the instance is
marked existing and clean and `original` is synced. -/
def fromAttributes (attrs : List (String × Value)) : ModelState :=
  syncOriginal { newModel with
    attributes := attrs, existsB := true, isDirty := false }

/-- `QueryBuilder.newFromBuilder(attributes)` (query-builder.ts lines
491–501): `fromAttributes`, then `exists := true`, `isDirty := false`, and
`syncOriginal()` again. -/
def newFromBuilder (row : List (String × Value)) : ModelState :=
  let inst := fromAttributes row
  syncOriginal { inst with existsB := true, isDirty := false }

/-- The row-materialization step of `QueryBuilder.get()`: every returned row
becomes a model via `newFromBuilder`. -/
def queryGet (rows : List (List (String × Value))) : List ModelState :=
  rows.map newFromBuilder

/-- The row-materialization step of `QueryBuilder.first()`: the first row of
the `limit(1)` result, if any, via `newFromBuilder`. -/
def queryFirst (rows : List (List (String × Value))) : Option ModelState :=
  match rows with
  | [] => none
  | r :: _ => some (newFromBuilder r)

/-! ## Database connection management (database.ts)

The module-level state is
`export let database = drizzle(postgres(env.DATABASE_URL))` — the handle is
**eagerly** initialized at module-load time from the environment (the
`postgres` client constructs lazily and does not throw here), so the state
starts out non-null.  `configureDatabase` replaces it wholesale;
`getDatabase` returns it after a falsiness check. -/

/-- A drizzle database handle, recording how its client was constructed.
`envUrl` may be `none` (an undefined `env.DATABASE_URL` is still accepted by
the `postgres` client, which then falls back to its own defaults). -/
inductive DbHandle where
  | fromUrl (url : Option String) (withSchema : Bool)
  | fromParams (host : String) (port : Nat) (dbname : String)
      (username : String) (password : Option String) (ssl : Option Bool)
  deriving DecidableEq, Repr

/-- `DatabaseConnectionConfig`. -/
structure ConnectionConfig where
  url : Option String := none
  host : Option String := none
  port : Option Nat := none
  database : Option String := none
  username : Option String := none
  password : Option String := none
  ssl : Option Bool := none

/-- JavaScript truthiness filter on an optional string: `undefined`/`null`
and the empty string are falsy. -/
def truthyStr : Option String → Option String
  | some s => if s = "" then none else some s
  | none => none

/-- JavaScript `a || b` for a `Nat` with a default (`config?.connection.port
|| 5432`): `undefined` and `0` are falsy. -/
def jsOrNat (a : Option Nat) (dflt : Nat) : Nat :=
  match a with
  | some n => if n = 0 then dflt else n
  | none => dflt

/-- The error message of a missing-parameters `configureDatabase` call. -/
def missingParamsMsg : String :=
  "Either provide a DATABASE_URL or all required connection parameters (host, database, username)"

/-- The error message of the `getDatabase` initialization check. -/
def dbNotInitMsg : String :=
  "Database not initialized. Call configureDatabase() first."

/-- `configureDatabase(config)` (database.ts lines 217–242):
`url = config?.connection.url || env.DATABASE_URL`; if truthy, connect by
connection string, otherwise require `host`, `database` and `username`
(throwing the configuration error when any is missing) and connect by
discrete parameters with port defaulting to 5432.  Returns the new handle. -/
def configureDatabase (env : Option String) (cfg : ConnectionConfig) :
    Except String DbHandle :=
  match truthyStr cfg.url with
  | some u => Except.ok (DbHandle.fromUrl (some u) true)
  | none =>
    match truthyStr env with
    | some u => Except.ok (DbHandle.fromUrl (some u) true)
    | none =>
      match truthyStr cfg.host, truthyStr cfg.database, truthyStr cfg.username with
      | some h, some d, some u =>
          Except.ok (DbHandle.fromParams h (jsOrNat cfg.port 5432) d u
            cfg.password cfg.ssl)
      | _, _, _ => Except.error missingParamsMsg

/-- The module-level initializer
`export let database = drizzle(postgres(env.DATABASE_URL))`: the handle
exists from load time on (`some`), whatever the environment holds. -/
def moduleInit (env : Option String) : Option DbHandle :=
  some (DbHandle.fromUrl env false)

/-- One observable `configureDatabase` call against the module state: on
success the handle is replaced, on a thrown configuration error the
assignment never executes and the state is unchanged. -/
def applyConfigure (env : Option String) (st : Option DbHandle)
    (cfg : ConnectionConfig) : Option DbHandle :=
  match configureDatabase env cfg with
  | Except.ok h => some h
  | Except.error _ => st

/-- The module state after loading and then running an arbitrary sequence of
`configureDatabase` calls. -/
def runConfigs (env : Option String) (cfgs : List ConnectionConfig) :
    Option DbHandle :=
  cfgs.foldl (applyConfigure env) (moduleInit env)

/-- `getDatabase()` (database.ts lines 244–248): throws the initialization
error when the handle is falsy, otherwise returns it. -/
def getDatabase (st : Option DbHandle) : Except String DbHandle :=
  match st with
  | none => Except.error dbNotInitMsg
  | some h => Except.ok h

/-! ## Request-pipeline composition (`createFrameworkHandler`, vite plugin)

A hook is invoked as `hook({event, resolve, config})`, the user handle as
`userHandle({event, resolve})`; both are modelled as curried functions.  The
loop `for (let i = hooks.length - 1; i >= 0; i--)` folds the hook list in
reverse so that the first hook is the outermost wrapper. -/

/-- A framework hook: `({event, resolve, config}) => response`. -/
def HookFn (Ev Resp Cfg : Type) : Type := Ev → (Ev → Resp) → Cfg → Resp

/-- A user `handle` export: `({event, resolve}) => response`. -/
def UserHandle (Ev Resp : Type) : Type := Ev → (Ev → Resp) → Resp

/-- `createFrameworkHandler({hooks, config, userHandle})` applied to one
request's `resolve`: the user handle (when present) becomes the innermost
link, then the hooks are chained in reverse iteration order so that
`hooks[0]` ends up outermost. -/
def createFrameworkHandler {Ev Resp Cfg : Type} (hooks : List (HookFn Ev Resp Cfg))
    (config : Cfg) (userHandle : Option (UserHandle Ev Resp))
    (resolve : Ev → Resp) : Ev → Resp :=
  let start : Ev → Resp :=
    match userHandle with
    | some u => fun e => u e resolve
    | none => resolve
  hooks.reverse.foldl (fun current hook => fun e => hook e current config) start

/-- A trace-recording test hook: logs `<name>.pre` on the way in and
`<name>.post` on the way out of the wrapped resolve. -/
def traceHook (name : String) : HookFn Unit (List String) Unit :=
  fun _ next _ => (name ++ ".pre") :: next () ++ [name ++ ".post"]

/-- A trace-recording user handle: logs `U` and delegates to its resolve. -/
def traceUser : UserHandle Unit (List String) :=
  fun _ next => "U" :: next ()

/-! ## `parsePagination` (helpers.ts lines 16–20) -/

/-- Longest leading run of decimal digits. -/
def digitsPrefix : List Char → List Char
  | [] => []
  | c :: cs => if c.isDigit then c :: digitsPrefix cs else []

/-- Value of a list of decimal digits. -/
def digitsToNat (ds : List Char) : Nat :=
  ds.foldl (fun acc c => acc * 10 + (c.toNat - 48)) 0

/-- JavaScript `parseInt(s)` restricted to decimal notation: skip leading
whitespace, take an optional sign and the longest decimal-digit prefix
(trailing garbage ignored); no digits means `NaN`, modelled as `none`.
(The `0x` hexadecimal auto-detection of the builtin is not modelled; no
claim involves it.) -/
def jsParseInt (s : String) : Option Int :=
  let cs := s.toList.dropWhile (fun c => c = ' ' ∨ c = '\t' ∨ c = '\n' ∨ c = '\r')
  match cs with
  | '-' :: rest =>
      let ds := digitsPrefix rest
      if ds = [] then none else some (-(digitsToNat ds : Int))
  | '+' :: rest =>
      let ds := digitsPrefix rest
      if ds = [] then none else some (digitsToNat ds : Int)
  | _ =>
      let ds := digitsPrefix cs
      if ds = [] then none else some (digitsToNat cs : Int)

/-- JavaScript `Math.max(a, x)` with a possibly-NaN second argument: NaN is
absorbing. -/
def jsMax (a : Int) (x : Option Int) : Option Int :=
  x.map (fun n => max a n)

/-- JavaScript `Math.min(a, x)` with a possibly-NaN second argument: NaN is
absorbing. -/
def jsMin (a : Int) (x : Option Int) : Option Int :=
  x.map (fun n => min a n)

/-- `parsePagination(url)`: `page = Math.max(1, parseInt(get('page') ||
'1'))`, `limit = Math.min(100, parseInt(get('limit') || '20'))`.  An absent
query parameter reads as `null`, which like the empty string is falsy, so
the defaults `'1'`/`'20'` apply to both. -/
def parsePagination (pageParam limitParam : Option String) :
    Option Int × Option Int :=
  let pageStr := match truthyStr pageParam with
    | some s => s
    | none => "1"
  let limitStr := match truthyStr limitParam with
    | some s => s
    | none => "20"
  (jsMax 1 (jsParseInt pageStr), jsMin 100 (jsParseInt limitStr))

/-! ## `deepEqual` (utils/index.ts lines 10–57)

JavaScript values for this utility live on an explicit heap so that object
identity and circular references are expressible: `jRef a` points at heap
address `a`, which holds a `Date`, an array or a plain object.  The `visited`
`WeakSet` is modelled as the list of addresses added on the current
recursion path: as established by the control flow of the source (a `false`
result propagates to the top immediately, and a `true` return restores the
set exactly), passing the extended set downward is observationally faithful
to the in-place mutation.  Recursion is by explicit fuel; any fuel exceeding
the recursion depth actually reached computes the function's value. -/

/-- JavaScript values for `deepEqual`: primitives (including `NaN` and
negative zero, which `===` treats specially) and heap references. -/
inductive JVal where
  | jNum (n : Int)
  | jNaN
  | jNegZero
  | jStr (s : String)
  | jBool (b : Bool)
  | jNull
  | jUndef
  | jRef (addr : Nat)
  deriving DecidableEq, Repr

/-- A heap cell: a `Date`, an array or a plain object. -/
inductive HeapObj where
  | oDate (ms : Int)
  | oArr (elems : List JVal)
  | oObj (fields : List (String × JVal))
  deriving DecidableEq, Repr

/-- A heap: finitely many allocated addresses. -/
def Heap : Type := List (Nat × HeapObj)

/-- Heap lookup. -/
def heapGet (h : Heap) (a : Nat) : Option HeapObj :=
  (h.find? (fun kv => kv.1 = a)).map Prod.snd

/-- JavaScript strict equality `===` on the modelled values: no coercion,
`NaN === NaN` is false, `0 === -0` is true, references compare by address. -/
def strictEq : JVal → JVal → Bool
  | JVal.jNum n, JVal.jNum m => n = m
  | JVal.jNum n, JVal.jNegZero => n = 0
  | JVal.jNegZero, JVal.jNum m => m = 0
  | JVal.jNegZero, JVal.jNegZero => true
  | JVal.jStr s, JVal.jStr t => s = t
  | JVal.jBool a, JVal.jBool b => a = b
  | JVal.jNull, JVal.jNull => true
  | JVal.jUndef, JVal.jUndef => true
  | JVal.jRef a, JVal.jRef b => a = b
  | _, _ => false

/-- Whether the guard `a == null || typeof a != 'object'` passes, i.e. the
value is a non-null object reference. -/
def isRef : JVal → Bool
  | JVal.jRef _ => true
  | _ => false

/-- `Object.keys` of a heap cell: arrays enumerate their index strings,
`Date`s have no own enumerable properties. -/
def keysOf : HeapObj → List String
  | HeapObj.oDate _ => []
  | HeapObj.oArr xs => (List.range xs.length).map (fun i => toString i)
  | HeapObj.oObj fs => fs.map Prod.fst

/-- Property read `o[k]` on a heap cell; an absent key is `undefined`. -/
def getProp : HeapObj → String → JVal
  | HeapObj.oDate _, _ => JVal.jUndef
  | HeapObj.oArr xs, k =>
      match (List.range xs.length).find? (fun i => toString i = k) with
      | some i => xs.getD i JVal.jUndef
      | none => JVal.jUndef
  | HeapObj.oObj fs, k =>
      match fs.find? (fun kv => kv.1 = k) with
      | some kv => kv.2
      | none => JVal.jUndef

/-- `deepEqual(a, b, visited)`: strict equality fast path; non-objects (or
null) are unequal past it; two `Date`s compare by timestamp **before** the
cycle check; a value already in `visited` means a circular reference, which
compares as `false`; then both-arrays compare element-wise and everything
else compares by key set and per-key recursion.  Dangling references
(addresses outside the heap) return `false`; a well-formed heap has none. -/
def deepEqual (heap : Heap) : Nat → List Nat → JVal → JVal → Bool
  | 0, _, _, _ => false
  | Nat.succ fuel, visited, a, b =>
    if strictEq a b then true
    else
      match a, b with
      | JVal.jRef ra, JVal.jRef rb =>
        (match heapGet heap ra, heapGet heap rb with
         | some oa, some ob =>
           (match oa, ob with
            | HeapObj.oDate m1, HeapObj.oDate m2 => m1 == m2
            | _, _ =>
              if visited.contains ra || visited.contains rb then false
              else
                let vis := ra :: rb :: visited
                match oa, ob with
                | HeapObj.oArr xs, HeapObj.oArr ys =>
                    xs.length == ys.length &&
                    (xs.zip ys).all (fun p => deepEqual heap fuel vis p.1 p.2)
                | _, _ =>
                    let ka := keysOf oa
                    let kb := keysOf ob
                    ka.length == kb.length &&
                    ka.all (fun k => kb.contains k &&
                      deepEqual heap fuel vis (getProp oa k) (getProp ob k)))
         | _, _ => false)
      | _, _ => false

/-! ## Shared scenario configurations and helper lemmas -/

/-- A concrete environment: a constant wall clock (every `new Date()` reads
the same instant — object identities still differ) and trivial builtins. -/
def envA : JsEnv :=
  { clock := fun _ => 1700000000000
    dateParseMs := fun _ => 0
    jsonParse := fun _ => Value.vNull
    jsStringOf := fun _ => ""
    jsNumberOf := fun _ => 0 }

/-- A model class with timestamps enabled, no casts, everything fillable and
validators that always succeed. -/
def stPlain : StaticConfig :=
  { primaryKey := "id"
    timestamps := true
    casts := []
    fillable := []
    validCreate := fun _ => true
    validUpdate := fun _ => true }

/-- A model class with `casts = {active: 'boolean', payload: 'json',
when: 'date'}`. -/
def stCasts : StaticConfig :=
  { primaryKey := "id"
    timestamps := true
    casts := [("active", CastType.cBoolean), ("payload", CastType.cJson),
      ("when", CastType.cDate)]
    fillable := []
    validCreate := fun _ => true
    validUpdate := fun _ => true }

/-- `List.find?` looks through the key-preserving rewrite `jsSet` performs
on present keys. -/
theorem find?_map_preserve (obj : List (String × Value)) (key key' : String)
    (v : Value) :
    List.find? (fun kv => kv.1 = key')
        (obj.map (fun kv => if kv.1 = key then (kv.1, v) else kv))
      = (List.find? (fun kv => kv.1 = key') obj).map
          (fun kv => if kv.1 = key then (kv.1, v) else kv) := by
  induction obj with
  | nil => rfl
  | cons a tl ih =>
      by_cases hk : a.1 = key
      · by_cases hk' : a.1 = key'
        · have hkk : key = key' := by rw [← hk, hk']
          subst hkk
          simp [List.find?_cons, hk, hk', ih]
        · have hkk : ¬ key = key' := fun h => hk' (h ▸ hk)
          simp [List.find?_cons, hk, hk', hkk, ih]
      · by_cases hk' : a.1 = key'
        · have hkk : ¬ key' = key := fun h => hk (h ▸ hk')
          simp [List.find?_cons, hk, hk', hkk]
        · simp [List.find?_cons, hk, hk', ih]

/-- Characterization of a JavaScript property write: reading `key'` after
`obj[key] = v` yields `v` at the written key and the old value elsewhere. -/
theorem jsGet_jsSet (obj : List (String × Value)) (key key' : String)
    (v : Value) :
    jsGet (jsSet obj key v) key' = if key' = key then v else jsGet obj key' := by
  by_cases hky : key' = key
  · subst hky
    by_cases hany : obj.any (fun kv => kv.1 = key') = true
    · simp only [jsSet, hany, if_true, jsGet, find?_map_preserve, if_pos rfl]
      have hsome : (List.find? (fun kv => kv.1 = key') obj).isSome := by
        rw [List.find?_isSome]
        simpa using List.any_eq_true.mp hany
      obtain ⟨kv0, hf⟩ := Option.isSome_iff_exists.mp hsome
      have hp : kv0.1 = key' := by simpa using List.find?_some hf
      simp [hf, hp]
    · have hnone : List.find? (fun kv => kv.1 = key') obj = none := by
        rw [List.find?_eq_none]
        intro x hx
        by_contra hc
        exact hany (List.any_eq_true.mpr ⟨x, hx, by simpa using hc⟩)
      simp [jsSet, hany, jsGet, List.find?_append, hnone, List.find?_cons]
  · by_cases hany : obj.any (fun kv => kv.1 = key) = true
    · simp only [jsSet, hany, if_true, jsGet, find?_map_preserve, if_neg hky]
      cases hf : List.find? (fun kv => kv.1 = key') obj with
      | none => simp
      | some kv1 =>
          have hp : kv1.1 = key' := by simpa using List.find?_some hf
          have hne : ¬ kv1.1 = key := by rw [hp]; exact hky
          simp [hne]
    · have hsing : List.find? (fun kv : String × Value => kv.1 = key') [(key, v)] = none := by
        simp only [List.find?_cons]
        have : (decide ((key, v).1 = key')) = false := by
          simp only [decide_eq_false_iff_not]
          exact fun h => hky (Eq.symm h)
        simp [this]
      rw [if_neg hky, jsSet, if_neg (by simpa using hany)]
      show jsGet (obj ++ [(key, v)]) key' = jsGet obj key'
      unfold jsGet
      rw [List.find?_append, hsing]
      cases List.find? (fun kv => kv.1 = key') obj <;> rfl

/-- Reading back the key just written. -/
theorem jsGet_jsSet_same (obj : List (String × Value)) (key : String)
    (v : Value) : jsGet (jsSet obj key v) key = v := by
  simp [jsGet_jsSet]

/-- Reading a different key than the one written. -/
theorem jsGet_jsSet_other (obj : List (String × Value)) (key key' : String)
    (v : Value) (h : key' ≠ key) : jsGet (jsSet obj key v) key' = jsGet obj key' := by
  simp [jsGet_jsSet, h]

/-! ## C1 — `whereAny` input-form equivalence -/

/-- The spec's example in object form: `{status:'active', age:['>',18]}`. -/
def exObjEntries : List (String × ObjVal) :=
  [("status", ObjVal.plain (Value.vStr "active")),
   ("age", ObjVal.opArr (Value.vStr ">") (Value.vNum 18))]

/-- The spec's example in tuple form:
`[['status','active'],['age','>',18]]`; the same list also describes the
two `where` calls the equivalent callback issues. -/
def exTuples : List TupleCond :=
  [TupleCond.two "status" (Value.vStr "active"),
   TupleCond.three "age" (Value.vStr ">") (Value.vNum 18)]

/-- C1: the object and array forms of `whereAny` (and the intended reading
of the callback form) build identical OR-condition trees, but the shipped
callback interception mishandles 2-argument `where` calls: the overriding
arrow function's `arguments.length === 2` test consults `whereAny`'s own
single-argument `arguments`, so `where('status','active')` is collected as
`eq(status, undefined)` instead of `eq(status, 'active')` — contradicting
the method's own documentation example and breaking the three-way
equivalence at the spec's example input. -/
theorem whereAny_three_forms :
    (∀ entries : List (String × ObjVal),
      whereAnyObject entries = whereAnyArray (entries.map objEntryToTuple)) ∧
    (∀ calls : List TupleCond,
      whereAnyCallbackIntended calls = whereAnyArray calls) ∧
    whereAnyObject exObjEntries =
      Cond.orC [Prim.eqC "status" (Value.vStr "active"),
        Prim.gtC "age" (Value.vNum 18)] ∧
    whereAnyArray exTuples =
      Cond.orC [Prim.eqC "status" (Value.vStr "active"),
        Prim.gtC "age" (Value.vNum 18)] ∧
    whereAnyCallback exTuples =
      Cond.orC [Prim.eqC "status" Value.vUndef,
        Prim.gtC "age" (Value.vNum 18)] ∧
    whereAnyCallback exTuples ≠ whereAnyArray exTuples := by
  refine ⟨?_, fun _ => rfl, rfl, rfl, rfl, by decide⟩
  intro entries
  simp only [whereAnyObject, whereAnyArray, List.map_map, Cond.orC.injEq]
  apply List.map_congr_left
  intro e _
  cases h : e.2 <;> simp [objEntryToTuple, h]

/-! ## C3 — `getDatabase` never raises the initialization error -/

/-- C3 counterexample: in an execution where `configureDatabase` was never
called, `getDatabase()` does **not** fail — the module-level initializer
already bound a handle from the environment — refuting the claim that the
error is raised whenever no configuration has happened. -/
theorem getDatabase_unconfigured_no_error :
    getDatabase (runConfigs (some "postgres://localhost:5432/app") []) =
      Except.ok (DbHandle.fromUrl (some "postgres://localhost:5432/app") false) ∧
    getDatabase (runConfigs (some "postgres://localhost:5432/app") []) ≠
      Except.error dbNotInitMsg := by
  exact ⟨rfl, fun h => Except.noConfusion h⟩

/-- C3 amended: `getDatabase()` returns the current process-wide handle in
**every** execution — because `database` is assigned eagerly at module load
from `env.DATABASE_URL`, the initialization-error branch is unreachable
whether or not `configureDatabase` was ever called. -/
theorem getDatabase_always_ok (env : Option String)
    (cfgs : List ConnectionConfig) :
    ∃ h, getDatabase (runConfigs env cfgs) = Except.ok h := by
  suffices H : ∀ (cfgs : List ConnectionConfig) (h0 : DbHandle),
      ∃ h, (cfgs.foldl (applyConfigure env) (some h0)) = some h by
    obtain ⟨h, hh⟩ := H cfgs (DbHandle.fromUrl env false)
    exact ⟨h, by simp [runConfigs, moduleInit, hh, getDatabase]⟩
  intro cfgs
  induction cfgs with
  | nil => exact fun h0 => ⟨h0, rfl⟩
  | cons c cs ih =>
      intro h0
      simp only [List.foldl_cons]
      rcases hc : configureDatabase env c with e | h1
      · simpa [applyConfigure, hc] using ih h0
      · simpa [applyConfigure, hc] using ih h1

/-! ## C4 — pagination arithmetic -/

/-- C4: the `paginate` meta object satisfies every equation the spec states:
page/perPage/total are passed through, `last_page` is the ceiling of
`total/perPage` (characterized by its Galois property
`last_page ≤ k ↔ total ≤ perPage·k`), `from`/`to` bracket the page window,
`has_more` and the links behave as specified, and the concrete instance
`perPage=10, page=3, total=25` matches the spec's table. -/
theorem paginate_meta_spec (perPage page total : Nat) (hp : 1 ≤ perPage)
    (hpg : 1 ≤ page) :
    (paginateMeta perPage page total).current_page = page ∧
    (paginateMeta perPage page total).per_page = perPage ∧
    (paginateMeta perPage page total).total = total ∧
    (∀ k : Nat, (paginateMeta perPage page total).last_page ≤ k ↔
      total ≤ perPage * k) ∧
    (paginateMeta perPage page total).from_ = (page - 1) * perPage + 1 ∧
    (paginateMeta perPage page total).to_ =
      min ((page - 1) * perPage + perPage) total ∧
    ((paginateMeta perPage page total).has_more = true ↔
      page < (paginateMeta perPage page total).last_page) ∧
    (paginateMeta perPage page total).link_first = 1 ∧
    (paginateMeta perPage page total).link_last =
      (paginateMeta perPage page total).last_page ∧
    (paginateMeta perPage page total).link_prev =
      (if 1 < page then some (page - 1) else none) ∧
    (paginateMeta perPage page total).link_next =
      (if page < (paginateMeta perPage page total).last_page
        then some (page + 1) else none) ∧
    paginateMeta 10 3 25 =
      { current_page := 3, per_page := 10, total := 25, last_page := 3,
        from_ := 21, to_ := 25, has_more := false, link_first := 1,
        link_last := 3, link_prev := some 2, link_next := none } := by
  refine ⟨rfl, rfl, rfl, ?_, rfl, rfl, ?_, rfl, rfl, ?_, rfl, by decide⟩
  · intro k
    have hp0 : 0 < perPage := hp
    have : (paginateMeta perPage page total).last_page = total ⌈/⌉ perPage := rfl
    rw [this]
    exact ceilDiv_le_iff_le_mul hp0
  · simp [paginateMeta]
  · simp [paginateMeta, gt_iff_lt]

/-- C4 witness: the theorem applied at `perPage=10, page=3, total=25`. -/
theorem paginate_meta_spec_witness :
    (1 : Nat) ≤ 10 ∧ (1 : Nat) ≤ 3 ∧
    (paginateMeta 10 3 25).last_page = 3 ∧ (paginateMeta 10 3 25).to_ = 25 := by
  have h := paginate_meta_spec 10 3 25 (by decide) (by decide)
  exact ⟨by decide, by decide, by rw [h.2.2.2.2.2.2.2.2.2.2.2],
    by rw [h.2.2.2.2.2.2.2.2.2.2.2]⟩

/-! ## C5 — request-pipeline composition ordering -/

/-- C5: with hooks `[H1, H2]` and a user handler `U`, the composed resolve
is literally `H1` wrapped around `H2` wrapped around `U` wrapped around the
base resolve (for arbitrary hook functions), and on trace-recording hooks
one request executes `H1.pre, H2.pre, U, resolve, H2.post, H1.post` in that
exact nesting order. -/
theorem createFrameworkHandler_order :
    (∀ (Ev Resp Cfg : Type) (h1 h2 : HookFn Ev Resp Cfg)
      (u : UserHandle Ev Resp) (cfg : Cfg) (resolve : Ev → Resp),
      createFrameworkHandler [h1, h2] cfg (some u) resolve =
        fun e => h1 e (fun e2 => h2 e2 (fun e3 => u e3 resolve) cfg) cfg) ∧
    createFrameworkHandler [traceHook "H1", traceHook "H2"] ()
      (some traceUser) (fun _ => ["resolve"]) () =
      ["H1.pre", "H2.pre", "U", "resolve", "H2.post", "H1.post"] := by
  exact ⟨fun _ _ _ _ _ _ _ _ => rfl, by decide⟩

/-! ## C9 — `parsePagination` clamping -/

/-- C9: the clamps and defaults behave as documented for numeric and absent
parameters, but a non-numeric `page` parameter refutes the claimed invariant
`page ≥ 1`: `parseInt('abc')` is `NaN` (modelled `none`) and
`Math.max(1, NaN)` is `NaN`, not `1` — contradicting the function's own doc
comment ("defaults to 1 if not provided or invalid"). -/
theorem parsePagination_clamps_and_nan :
    parsePagination none none = (some 1, some 20) ∧
    parsePagination (some "2") (some "50") = (some 2, some 50) ∧
    parsePagination (some "2") (some "500") = (some 2, some 100) ∧
    parsePagination (some "-3") (some "7") = (some 1, some 7) ∧
    parsePagination (some "") (some "") = (some 1, some 20) ∧
    parsePagination (some "abc") (some "50") = (none, some 50) ∧
    (parsePagination (some "abc") (some "50")).1 ≠ some 1 := by
  refine ⟨by decide, by decide, by decide, by decide, by decide, by decide, by decide⟩

/-! ## C2 — dirty tracking and the second `save()` -/

/-- The freshly loaded model of the dirty-tracking scenario after
`setAttribute('name', "B")` (no cast applies, no allocation happens). -/
def c2_m1 : ModelState :=
  (setAttribute envA stPlain (fromAttributes [("name", Value.vStr "A")])
    "name" (Value.vStr "B") 0).1

/-- The model after the first successful `save()` (which allocates the
`updated_at` dates at counters 1 and 2; the observation of
`getDirtyAttributes` before it consumed counter 0). -/
def c2_m2 : ModelState :=
  match save envA stPlain c2_m1 1 none with
  | Except.ok r => r.1
  | Except.error _ => c2_m1

/-- The saved model after `setAttribute('name', "B")` with the same value
again. -/
def c2_m3 : ModelState :=
  (setAttribute envA stPlain c2_m2 "name" (Value.vStr "B") 3).1

/-- C2: after `setAttribute('name', "B")` the dirty set is exactly
`{name: "B", updated_at: <now>}` and after the save, re-setting the same
value yields an empty dirty set — but the subsequent `save()` does **not**
short-circuit: `save` first runs `updateTimestamps()`, which assigns a
freshly allocated `Date` to `updated_at`; the strict-inequality (`!==`)
dirty comparison sees a new object reference (even at the very same
instant — the scenario clock is constant), so `performUpdate` receives a
non-empty payload and issues an UPDATE round-trip, contrary to the claim
and to the short-circuit intent evidenced by `performUpdate`'s empty-check
and `getDirtyAttributes`' conditional timestamp append. -/
theorem dirty_tracking_second_save_updates :
    (getDirtyAttributes envA stPlain c2_m1 0).1 =
      [("name", Value.vStr "B"), ("updated_at", Value.vDate 1700000000000 0)] ∧
    (getDirtyAttributes envA stPlain c2_m3 3).1 = [] ∧
    (∃ m4, save envA stPlain c2_m3 3 none =
      Except.ok (m4, 5,
        [DbEffect.dbUpdate [("updated_at", Value.vDate 1700000000000 4)]
          Value.vUndef])) := by
  exact ⟨rfl, rfl, ⟨_, rfl⟩⟩

/-! ## C6 — attribute casting round-trips -/

/-- C6: on a model class with `casts = {active:'boolean', payload:'json',
when:'date'}`, setting a raw string `s` on `active` stores `true` exactly
when the lowercased string is one of `"1"|"true"|"yes"|"on"` and `false`
otherwise; a `json`-cast attribute set from a string reads back as the
`JSON.parse` of that string; a `date`-cast attribute set from a string
reads back as a `Date` whose instant is the JavaScript date-parse of the
string.  (`getAttribute` returns the stored value without re-casting, so
these are genuine set/get round-trips.) -/
theorem casting_roundtrip (env : JsEnv) (m : ModelState) (ctr : Nat)
    (s : String) :
    getAttribute (setAttribute env stCasts m "active" (Value.vStr s) ctr).1
        "active"
      = Value.vBool (["true", "1", "yes", "on"].contains (asciiLower s)) ∧
    (getAttribute (setAttribute env stCasts m "active" (Value.vStr s) ctr).1
        "active" = Value.vBool true ↔
      asciiLower s ∈ ["true", "1", "yes", "on"]) ∧
    getAttribute (setAttribute env stCasts m "payload" (Value.vStr s) ctr).1
        "payload"
      = env.jsonParse s ∧
    getAttribute (setAttribute env stCasts m "when" (Value.vStr s) ctr).1
        "when"
      = Value.vDate (env.dateParseMs (Value.vStr s)) ctr := by
  refine ⟨?_, ?_, ?_, ?_⟩
  · exact jsGet_jsSet_same m.attributes "active" _
  · rw [show getAttribute (setAttribute env stCasts m "active" (Value.vStr s) ctr).1
        "active" = Value.vBool (["true", "1", "yes", "on"].contains (asciiLower s))
      from jsGet_jsSet_same m.attributes "active" _]
    simp [List.contains]
  · exact jsGet_jsSet_same m.attributes "payload" _
  · exact jsGet_jsSet_same m.attributes "when" _

/-! ## C10 — `fromAttributes` stores verbatim -/

/-- C10: `fromAttributes` copies the given attributes verbatim (no cast from
the static `casts` map is applied — contrast the last conjunct, where
`setAttribute` on the same model class casts `"1"` to `true`), and the
resulting instance always has `exists = true`, `isDirty = false` and
`original` equal to the stored attributes; `newFromBuilder` adds nothing on
top, and every row materialized by `get`/`first` goes through it. -/
theorem fromAttributes_verbatim :
    (∀ attrs, fromAttributes attrs =
      { attributes := attrs, original := attrs, existsB := true,
        isDirty := false }) ∧
    (∀ attrs, newFromBuilder attrs = fromAttributes attrs) ∧
    (∀ rows, queryGet rows = rows.map fromAttributes) ∧
    (∀ r rs, queryFirst (r :: rs) = some (fromAttributes r)) ∧
    queryFirst [] = none ∧
    (fromAttributes [("active", Value.vStr "1")]).attributes =
      [("active", Value.vStr "1")] ∧
    (setAttribute envA stCasts newModel "active" (Value.vStr "1") 0).1.attributes =
      [("active", Value.vBool true)] := by
  refine ⟨fun attrs => rfl, fun attrs => rfl, fun rows => ?_, fun r rs => rfl,
    rfl, rfl, by decide⟩
  simp only [queryGet]
  exact List.map_congr_left (fun r _ => rfl)

/-! ## C7 — `delete` -/

theorem updateTimestamps_existsB (env : JsEnv) (st : StaticConfig)
    (m : ModelState) (ctr : Nat) :
    (updateTimestamps env st m ctr).1.existsB = m.existsB := by
  unfold updateTimestamps
  cases hm : m.existsB <;> simp [hm, setAttribute]

theorem updateTimestamps_preserves (env : JsEnv) (st : StaticConfig)
    (m : ModelState) (ctr : Nat) (key : String) (hex : m.existsB = true)
    (hk : key ≠ "updated_at") :
    jsGet (updateTimestamps env st m ctr).1.attributes key = jsGet m.attributes key := by
  unfold updateTimestamps
  simp [hex, setAttribute, jsGet_jsSet, hk]

theorem performUpdate_shape (env : JsEnv) (st : StaticConfig) (m : ModelState)
    (ctr : Nat) (hv : ∀ d, st.validUpdate d = true) :
    ∃ m2 c2 effs, performUpdate env st m ctr = Except.ok (m2, c2, effs) ∧
      m2.attributes = m.attributes ∧ m2.existsB = m.existsB ∧
      (∀ k, DbEffect.dbDelete k ∉ effs) := by
  unfold performUpdate
  by_cases hd : (getDirtyAttributes env st m ctr).1 = []
  · exact ⟨m, (getDirtyAttributes env st m ctr).2, [], by simp [hd], rfl, rfl, by simp⟩
  · refine ⟨syncOriginal m, (getDirtyAttributes env st m ctr).2,
      [DbEffect.dbUpdate (getDirtyAttributes env st m ctr).1 (getKey st m)],
      by simp [hd, hv], rfl, rfl, by simp⟩

theorem save_existing (env : JsEnv) (st : StaticConfig) (m : ModelState)
    (ctr : Nat) (dbRow : Option (List (String × Value)))
    (hex : m.existsB = true) (hv : ∀ d, st.validUpdate d = true) :
    ∃ m2 c2 effs, save env st m ctr dbRow = Except.ok (m2, c2, effs) ∧
      m2.attributes = (if st.timestamps
        then (updateTimestamps env st m ctr).1.attributes
        else m.attributes) ∧
      m2.existsB = true ∧ (∀ k, DbEffect.dbDelete k ∉ effs) := by
  unfold save
  by_cases ht : st.timestamps
  · simp only [ht, if_true]
    have hex2 : (updateTimestamps env st m ctr).1.existsB = true := by
      rw [updateTimestamps_existsB]; exact hex
    rw [if_pos hex2]
    obtain ⟨m2, c2, effs, h1, h2, h3, h4⟩ :=
      performUpdate_shape env st (updateTimestamps env st m ctr).1
        (updateTimestamps env st m ctr).2 hv
    exact ⟨m2, c2, effs, h1, h2, by rw [h3, hex2], h4⟩
  · simp only [ht, Bool.false_eq_true, if_false]
    rw [if_pos hex]
    obtain ⟨m2, c2, effs, h1, h2, h3, h4⟩ := performUpdate_shape env st m ctr hv
    exact ⟨m2, c2, effs, h1, h2, by rw [h3, hex], h4⟩

theorem delete_spec (env : JsEnv) (st : StaticConfig) (m : ModelState)
    (ctr : Nat) (hv : ∀ d, st.validUpdate d = true) :
    (m.existsB = false → delete env st m ctr = Except.ok (false, m, ctr, [])) ∧
    (m.existsB = true → jsGet m.attributes "deleted_at" ≠ Value.vUndef →
      ∃ m2 ctr2 effs,
        delete env st m ctr = Except.ok (true, m2, ctr2, effs) ∧
        m2.existsB = false ∧
        getAttribute m2 "deleted_at" = Value.vDate (env.clock ctr) ctr ∧
        (∀ k, DbEffect.dbDelete k ∉ effs)) ∧
    (m.existsB = true → jsGet m.attributes "deleted_at" = Value.vUndef →
      delete env st m ctr =
        Except.ok (true, { m with existsB := false }, ctr,
          [DbEffect.dbDelete (getKey st m)])) := by
  refine ⟨?_, ?_, ?_⟩
  · intro hex
    unfold delete
    simp [hex]
  · intro hex hda
    unfold delete
    rw [if_neg (by simp [hex]), if_pos hda]
    have hex1 : ({ m with attributes := jsSet m.attributes "deleted_at" (Value.vDate (env.clock ctr) ctr) } : ModelState).existsB = true := hex
    obtain ⟨m2, c2, effs, h1, h2, h3, h4⟩ :=
      save_existing env st { m with attributes := jsSet m.attributes "deleted_at" (Value.vDate (env.clock ctr) ctr) } (ctr + 1) none hex1 hv
    refine ⟨{ m2 with existsB := false }, c2, effs, ?_, rfl, ?_, h4⟩
    · simp only [h1]
    · show jsGet m2.attributes "deleted_at" = Value.vDate (env.clock ctr) ctr
      rw [h2]
      by_cases ht : st.timestamps
      · simp only [ht, if_true]
        rw [updateTimestamps_preserves env st _ (ctr + 1) "deleted_at" hex1 (by decide)]
        exact jsGet_jsSet_same m.attributes "deleted_at" _
      · simp only [ht, Bool.false_eq_true, if_false]
        exact jsGet_jsSet_same m.attributes "deleted_at" _
  · intro hex hda
    unfold delete
    rw [if_neg (by simp [hex]), if_neg (by simp [hda])]

theorem delete_spec_witness :
    ∃ m2 ctr2 effs,
      delete envA stPlain
          (fromAttributes [("id", Value.vNum 7), ("deleted_at", Value.vNull)]) 0 =
        Except.ok (true, m2, ctr2, effs) ∧ m2.existsB = false ∧
      getAttribute m2 "deleted_at" = Value.vDate 1700000000000 0 ∧
      (∀ k, DbEffect.dbDelete k ∉ effs) :=
  (delete_spec envA stPlain _ 0 (fun _ => rfl)).2.1 rfl (by decide)

/-! ## C8 — `deepEqual` -/

/-- The nested-object example `{a:[1,{b:2}]}` twice on the heap, with the
left copy's inner `b` value replaced by `x` (for `x = jNum 2` this is the
unmutated example). -/
def nestHeapL (x : JVal) : Heap :=
  [(0, HeapObj.oObj [("a", JVal.jRef 1)]),
   (1, HeapObj.oArr [JVal.jNum 1, JVal.jRef 2]),
   (2, HeapObj.oObj [("b", x)]),
   (3, HeapObj.oObj [("a", JVal.jRef 4)]),
   (4, HeapObj.oArr [JVal.jNum 1, JVal.jRef 5]),
   (5, HeapObj.oObj [("b", JVal.jNum 2)])]

/-- As `nestHeapL`, but the left copy's first array element is `x` instead
of `1`. -/
def nestHeapA (x : JVal) : Heap :=
  [(0, HeapObj.oObj [("a", JVal.jRef 1)]),
   (1, HeapObj.oArr [x, JVal.jRef 2]),
   (2, HeapObj.oObj [("b", JVal.jNum 2)]),
   (3, HeapObj.oObj [("a", JVal.jRef 4)]),
   (4, HeapObj.oArr [JVal.jNum 1, JVal.jRef 5]),
   (5, HeapObj.oObj [("b", JVal.jNum 2)])]

/-- As `nestHeapL`, but the mutation is on the right copy's inner `b`. -/
def nestHeapR (x : JVal) : Heap :=
  [(0, HeapObj.oObj [("a", JVal.jRef 1)]),
   (1, HeapObj.oArr [JVal.jNum 1, JVal.jRef 2]),
   (2, HeapObj.oObj [("b", JVal.jNum 2)]),
   (3, HeapObj.oObj [("a", JVal.jRef 4)]),
   (4, HeapObj.oArr [JVal.jNum 1, JVal.jRef 5]),
   (5, HeapObj.oObj [("b", x)])]

/-- Comparing any value other than the number `2` against the number `2`
yields `false` (reference values fail the object guard against a number;
primitive values fail strict equality). -/
theorem deepEqual_ne_two_left (heap : Heap) (fuel : Nat) (vis : List Nat)
    (x : JVal) (hx : x ≠ JVal.jNum 2) :
    deepEqual heap fuel vis x (JVal.jNum 2) = false := by
  cases fuel with
  | zero => rfl
  | succ f =>
      cases x with
      | jNum n =>
          have h2 : ¬ (n = 2) := fun h => hx (by rw [h])
          simp [deepEqual, strictEq, h2]
      | jNaN => rfl
      | jNegZero => rfl
      | jStr s => rfl
      | jBool b => rfl
      | jNull => rfl
      | jUndef => rfl
      | jRef a => rfl

/-- Symmetric version: the number `2` against any other value. -/
theorem deepEqual_ne_two_right (heap : Heap) (fuel : Nat) (vis : List Nat)
    (x : JVal) (hx : x ≠ JVal.jNum 2) :
    deepEqual heap fuel vis (JVal.jNum 2) x = false := by
  cases fuel with
  | zero => rfl
  | succ f =>
      cases x with
      | jNum n =>
          have h2 : ¬ ((2 : Int) = n) := fun h => hx (by rw [← h])
          simp [deepEqual, strictEq, h2]
      | jNaN => rfl
      | jNegZero => simp [deepEqual, strictEq]
      | jStr s => rfl
      | jBool b => rfl
      | jNull => rfl
      | jUndef => rfl
      | jRef a => rfl

/-- Comparing any value other than the number `1` against the number `1`. -/
theorem deepEqual_ne_one_left (heap : Heap) (fuel : Nat) (vis : List Nat)
    (x : JVal) (hx : x ≠ JVal.jNum 1) :
    deepEqual heap fuel vis x (JVal.jNum 1) = false := by
  cases fuel with
  | zero => rfl
  | succ f =>
      cases x with
      | jNum n =>
          have h2 : ¬ (n = 1) := fun h => hx (by rw [h])
          simp [deepEqual, strictEq, h2]
      | jNaN => rfl
      | jNegZero => rfl
      | jStr s => rfl
      | jBool b => rfl
      | jNull => rfl
      | jUndef => rfl
      | jRef a => rfl

/-- The whole nested comparison reduces (definitionally) to the leaf
comparison of the mutated slot; established here once per mutation site. -/
theorem nestHeapL_reduces (x : JVal) :
    deepEqual (nestHeapL x) 4 [] (JVal.jRef 0) (JVal.jRef 3)
      = (((deepEqual (nestHeapL x) 1 [2, 5, 1, 4, 0, 3] x (JVal.jNum 2)
          && true) && true) && true) := rfl

/-- Reduction of the array-slot mutation comparison to its leaf. -/
theorem nestHeapA_reduces (x : JVal) :
    deepEqual (nestHeapA x) 4 [] (JVal.jRef 0) (JVal.jRef 3)
      = ((deepEqual (nestHeapA x) 2 [1, 4, 0, 3] x (JVal.jNum 1)
          && true) && true) := rfl

/-- Reduction of the right-side mutation comparison to its leaf. -/
theorem nestHeapR_reduces (x : JVal) :
    deepEqual (nestHeapR x) 4 [] (JVal.jRef 0) (JVal.jRef 3)
      = (((deepEqual (nestHeapR x) 1 [2, 5, 1, 4, 0, 3] (JVal.jNum 2) x
          && true) && true) && true) := rfl

/-- C8: `deepEqual(NaN, NaN)` is false (strict equality fails and numbers
are not objects); `deepEqual(0, -0)` is true; two `Date`s compare equal
exactly when their millisecond timestamps agree; the nested example
`{a:[1,{b:2}]}` compares equal to a structurally identical copy, and
replacing any of its nested leaf values — the inner `b: 2` on either side
or the array element `1` — by **any** different value makes the comparison
false; and two objects that are each their own circular reference
(`a.self = a`, `b.self = b`, distinct objects) compare as false. -/
theorem deepEqual_spec :
    (∀ (heap : Heap) (fuel : Nat) (vis : List Nat),
      deepEqual heap (fuel + 1) vis JVal.jNaN JVal.jNaN = false) ∧
    (∀ (heap : Heap) (fuel : Nat) (vis : List Nat),
      deepEqual heap (fuel + 1) vis (JVal.jNum 0) JVal.jNegZero = true) ∧
    (∀ (heap : Heap) (f : Nat) (vis : List Nat) (ra rb : Nat) (m1 m2 : Int),
      heapGet heap ra = some (HeapObj.oDate m1) →
      heapGet heap rb = some (HeapObj.oDate m2) →
      deepEqual heap (f + 1) vis (JVal.jRef ra) (JVal.jRef rb) = (m1 == m2)) ∧
    deepEqual (nestHeapL (JVal.jNum 2)) 4 [] (JVal.jRef 0) (JVal.jRef 3) = true ∧
    (∀ x, x ≠ JVal.jNum 2 →
      deepEqual (nestHeapL x) 4 [] (JVal.jRef 0) (JVal.jRef 3) = false) ∧
    (∀ x, x ≠ JVal.jNum 1 →
      deepEqual (nestHeapA x) 4 [] (JVal.jRef 0) (JVal.jRef 3) = false) ∧
    (∀ x, x ≠ JVal.jNum 2 →
      deepEqual (nestHeapR x) 4 [] (JVal.jRef 0) (JVal.jRef 3) = false) ∧
    (∀ (heap : Heap) (f : Nat) (ra rb : Nat),
      heapGet heap ra = some (HeapObj.oObj [("self", JVal.jRef ra)]) →
      heapGet heap rb = some (HeapObj.oObj [("self", JVal.jRef rb)]) →
      ra ≠ rb →
      deepEqual heap (f + 2) [] (JVal.jRef ra) (JVal.jRef rb) = false) := by
  refine ⟨fun _ _ _ => rfl, fun _ _ _ => rfl, ?_, by decide, ?_, ?_, ?_, ?_⟩
  · intro heap f vis ra rb m1 m2 h1 h2
    by_cases hr : ra = rb
    · subst hr
      rw [h1] at h2
      injection h2 with h2'
      injection h2' with h2m
      subst h2m
      simp [deepEqual, strictEq]
    · simp only [deepEqual]
      rw [if_neg (by simp [strictEq, hr])]
      simp [h1, h2]
  · intro x hx
    rw [nestHeapL_reduces, deepEqual_ne_two_left _ _ _ x hx]
    rfl
  · intro x hx
    rw [nestHeapA_reduces, deepEqual_ne_one_left _ _ _ x hx]
    rfl
  · intro x hx
    rw [nestHeapR_reduces, deepEqual_ne_two_right _ _ _ x hx]
    rfl
  · intro heap f ra rb h1 h2 hne
    simp only [deepEqual]
    rw [if_neg (by simp [strictEq, hne])]
    simp [h1, h2, keysOf, getProp, deepEqual, strictEq, hne, List.find?_cons]

/-- C8 witness: the date and circular-reference parts of `deepEqual_spec`
applied at concrete heaps, and one concrete mutation instance. -/
theorem deepEqual_spec_witness :
    deepEqual [(0, HeapObj.oDate 42), (1, HeapObj.oDate 43)] 1 []
        (JVal.jRef 0) (JVal.jRef 1) = false ∧
    deepEqual [(0, HeapObj.oObj [("self", JVal.jRef 0)]),
        (1, HeapObj.oObj [("self", JVal.jRef 1)])] 2 []
        (JVal.jRef 0) (JVal.jRef 1) = false ∧
    deepEqual (nestHeapL JVal.jNull) 4 [] (JVal.jRef 0) (JVal.jRef 3) = false := by
  refine ⟨?_, ?_, ?_⟩
  · have h := deepEqual_spec.2.2.1 [(0, HeapObj.oDate 42), (1, HeapObj.oDate 43)]
      0 [] 0 1 42 43 rfl rfl
    simpa using h
  · exact deepEqual_spec.2.2.2.2.2.2.2 _ 0 0 1 rfl rfl (by decide)
  · exact deepEqual_spec.2.2.2.2.1 JVal.jNull (by decide)

end OmniSvelte
